import Mathlib

/-!
Verification development for the resource-node allocation scheduler of the
repository (source file src/planners/HarvestPlanner.ts).  The definitions
below are a shallow embedding of that file: JS objects keyed by strings
become association lists that preserve insertion order (JS string-keyed
object iteration order), JS numbers holding tick counts become Nat, grid
coordinates become Int, and the game environment (Game.time, Game.creeps,
Game.rooms) becomes an explicit GameState value threaded through every
function.  Stateful methods of the HarvestPlanner class become functions
from a PlannerState (its four fields) to a new PlannerState, paired with
the list of signals they emit where a claim observes emissions.
-/

namespace HarvestPlanner

/-- One adjacent harvesting position of a source
(interface SourcePosition in the source). -/
structure SourcePosition where
  x : Int
  y : Int
  isBlocked : Bool
  occupiedBy : Option String
  lastUpdated : Nat
deriving DecidableEq, Repr

/-- Per-source record of the planner database (interface SourceData). -/
structure SourceData where
  sourceId : String
  roomName : String
  positions : List SourcePosition
  totalPositions : Nat
  freePositions : Nat
  lastScanned : Nat
deriving DecidableEq, Repr

/-- A queued demand for a source (interface HarvestRequest). -/
structure HarvestRequest where
  creepName : String
  roomName : String
  requestTime : Nat
  priority : Int
  allowCrossRoom : Bool
deriving DecidableEq, Repr

/-- The payload of a harvest.need_source signal.  priority and
allowCrossRoom may be absent, which the source maps through the JS
fallbacks given in handleHarvestRequest. -/
structure HarvestSignalData where
  creepName : String
  roomName : String
  priority : Option Int
  allowCrossRoom : Option Bool
deriving DecidableEq, Repr

/-- A room controller as the planner reads it (controller.my and
controller.owner). -/
structure RoomController where
  my : Bool
  owner : Option String
deriving DecidableEq, Repr

/-- A source object visible in the world (Game.getObjectById target). -/
structure SourceObj where
  id : String
  roomName : String
  x : Int
  y : Int
deriving DecidableEq, Repr

/-- A visible room: name, controller, its sources (room.find FIND_SOURCES)
and its terrain, as a wall predicate over coordinates
(terrain.get x y returning the wall mask). -/
structure Room where
  name : String
  controller : Option RoomController
  sources : List SourceObj
  terrainWall : Int → Int → Bool

/-- A live creep with the memory fields the planner reads. -/
structure Creep where
  name : String
  roomName : String
  x : Int
  y : Int
  role : String
  targetRoom : Option String
deriving DecidableEq, Repr

/-- The game environment the planner reads: Game.time, Game.creeps and
Game.rooms. -/
structure GameState where
  time : Nat
  creeps : List Creep
  rooms : List Room

/-- The mutable fields of the HarvestPlanner class. -/
structure PlannerState where
  sourceDatabase : List (String × SourceData)
  harvestRequests : List HarvestRequest
  assignments : List (String × String)
  adjacentRoomsCache : List (String × List String)
deriving DecidableEq, Repr

/-- The REQUEST_TIMEOUT constant (100 ticks). -/
def REQUEST_TIMEOUT : Nat := 100

/-- First-match lookup in an association list: JS object property read. -/
def assocGet (l : List (String × α)) (k : String) : Option α :=
  (l.find? (fun p => p.1 == k)).map (fun p => p.2)

/-- Point update of an association list entry: JS object property write on
an existing key.  Every pair carrying the key is rewritten (keys of a JS
object are unique, so on states built by this development the two agree). -/
def assocUpdate (l : List (String × α)) (k : String) (f : α → α) :
    List (String × α) :=
  l.map (fun p => if p.1 == k then (p.1, f p.2) else p)

/-- JS object property write that may create the key: update in place when
present, append otherwise. -/
def assocSet (l : List (String × α)) (k : String) (v : α) :
    List (String × α) :=
  if l.any (fun p => p.1 == k) then
    l.map (fun p => if p.1 == k then (p.1, v) else p)
  else l ++ [(k, v)]

/-- JS delete of an object property. -/
def assocErase (l : List (String × α)) (k : String) : List (String × α) :=
  l.filter (fun p => !(p.1 == k))

/-- JS falsiness of the occupiedBy field (null and the empty string are
falsy). -/
def strFalsy : Option String → Bool
  | none => true
  | some s => s == ""

/-- The JS fallback pattern x or-else d on an optional number: absent and
0 both yield the default (handleHarvestRequest uses data.priority with
default 5). -/
def jsOrInt (v : Option Int) (dflt : Int) : Int :=
  match v with
  | none => dflt
  | some n => if n = 0 then dflt else n

/-- The JS fallback pattern x or-else d on an optional boolean (the source
uses data.allowCrossRoom with default false). -/
def jsOrBool (v : Option Bool) (dflt : Bool) : Bool :=
  match v with
  | none => dflt
  | some b => if b then b else dflt

/-- Game.creeps lookup by name. -/
def findCreep (game : GameState) (name : String) : Option Creep :=
  game.creeps.find? (fun c => c.name == name)

/-- Game.rooms lookup by room name. -/
def findRoom (game : GameState) (name : String) : Option Room :=
  game.rooms.find? (fun r => r.name == name)

/-- safeGetObjectById for sources: resolves an id among the sources of the
currently visible rooms, none when the object is not visible. -/
def gameGetSource (game : GameState) (id : String) : Option SourceObj :=
  ((game.rooms.map Room.sources).flatten).find? (fun s => s.id == id)

/-- cleanupTimeoutRequests: drops every request whose age strictly exceeds
REQUEST_TIMEOUT at the given current time. -/
def cleanupTimeoutRequests (currentTime : Nat)
    (requests : List HarvestRequest) : List HarvestRequest :=
  requests.filter (fun req => !(decide (currentTime - req.requestTime > REQUEST_TIMEOUT)))

/-- The request record built at the top of handleHarvestRequest from the
signal payload. -/
def mkRequest (game : GameState) (d : HarvestSignalData) : HarvestRequest :=
  { creepName := d.creepName
    roomName := d.roomName
    requestTime := game.time
    priority := jsOrInt d.priority 5
    allowCrossRoom := jsOrBool d.allowCrossRoom false }

/-- The queue phase of handleHarvestRequest: dedup lookup by creep name
and room name, in-place priority upgrade, then existence check and push. -/
def enqueueRequest (game : GameState) (st : PlannerState)
    (request : HarvestRequest) : PlannerState :=
  match st.harvestRequests.findIdx?
      (fun req => req.creepName == request.creepName &&
                  req.roomName == request.roomName) with
  | some i =>
    match st.harvestRequests.get? i with
    | some existing =>
      if request.priority < existing.priority then
        let upgraded := { existing with priority := request.priority,
                                        requestTime := game.time }
        { st with harvestRequests := st.harvestRequests.set i upgraded }
      else st
    | none => st
  | none =>
    if (findCreep game request.creepName).isNone then st
    else { st with harvestRequests := st.harvestRequests ++ [request] }

/-- handleHarvestRequest: build the request, short-circuit when a still
valid assignment exists (dropping an invalidated one), then enqueue. -/
def handleHarvestRequest (game : GameState) (st : PlannerState)
    (d : HarvestSignalData) : PlannerState :=
  let request := mkRequest game d
  match assocGet st.assignments request.creepName with
  | some assignedSourceId =>
    match assocGet st.sourceDatabase assignedSourceId with
    | some sourceData =>
      if sourceData.freePositions > 0 then st
      else enqueueRequest game
        { st with assignments := assocErase st.assignments request.creepName }
        request
    | none =>
      enqueueRequest game
        { st with assignments := assocErase st.assignments request.creepName }
        request
  | none => enqueueRequest game st request

/-- The 3x3 offsets around a source in the order the nested dx and dy
loops of scanSource produce them. -/
def scanOffsets : List (Int × Int) :=
  ([-1, 0, 1] : List Int).flatMap (fun dx =>
    ([-1, 0, 1] : List Int).map (fun dy => (dx, dy)))

/-- scanSource: create the database entry on first discovery (with
freePositions 0), then replace the position list from terrain and
recompute totalPositions and lastScanned.  freePositions is not touched
by this function, exactly as in the source. -/
def scanSource (game : GameState) (source : SourceObj)
    (db : List (String × SourceData)) : List (String × SourceData) :=
  let terrain := match findRoom game source.roomName with
    | some room => room.terrainWall
    | none => fun _ _ => false
  let db1 := if (assocGet db source.id).isNone then
      db ++ [(source.id,
        { sourceId := source.id, roomName := source.roomName,
          positions := [], totalPositions := 0, freePositions := 0,
          lastScanned := game.time })]
    else db
  let newPositions := scanOffsets.filterMap (fun d =>
    if d.1 = 0 ∧ d.2 = 0 then none
    else
      let x := source.x + d.1
      let y := source.y + d.2
      if x < 0 ∨ x > 49 ∨ y < 0 ∨ y > 49 then none
      else some { x := x, y := y, isBlocked := terrain x y,
                  occupiedBy := none, lastUpdated := game.time })
  assocUpdate db1 source.id (fun sd =>
    { sd with positions := newPositions,
              totalPositions :=
                (newPositions.filter (fun p => !p.isBlocked)).length,
              lastScanned := game.time })

/-- scanAllSources: scanSource over every source of every visible room. -/
def scanAllSources (game : GameState) (db : List (String × SourceData)) :
    List (String × SourceData) :=
  game.rooms.foldl (fun db room =>
    room.sources.foldl (fun db s => scanSource game s db) db) db

/-- First-occurrence deduplication, as iterating a JS Set built from a
list does. -/
def dedupFirstAux : List String → List String → List String
  | [], acc => acc.reverse
  | x :: xs, acc =>
    if x ∈ acc then dedupFirstAux xs acc else dedupFirstAux xs (x :: acc)

/-- new Set(list) iterated in insertion order. -/
def dedupFirst (l : List String) : List String := dedupFirstAux l []

/-- Clear every occupant of a source (the per-source clearing loops of
updateOccupancyStatus). -/
def clearOccupants (sd : SourceData) : SourceData :=
  { sd with positions := sd.positions.map (fun p => { p with occupiedBy := none }) }

/-- Mark the first non-blocked position matching the creep coordinates as
occupied (positions.find followed by the in-place mutation). -/
def markAt (creepName : String) (t : Nat) (cx cy : Int) :
    List SourcePosition → List SourcePosition
  | [] => []
  | p :: ps =>
    if p.x = cx ∧ p.y = cy ∧ !p.isBlocked then
      { p with occupiedBy := some creepName, lastUpdated := t } :: ps
    else p :: markAt creepName t cx cy ps

/-- The body of the per-assigned-creep loop of updateOccupancyStatus:
resolve the creep, its assigned source, the reference position, apply the
distance and room check, and mark the matching slot. -/
def markCreepStep (game : GameState) (assignments : List (String × String))
    (db : List (String × SourceData)) (creepName : String) :
    List (String × SourceData) :=
  match findCreep game creepName with
  | none => db
  | some creep =>
    match assocGet assignments creepName with
    | none => db
    | some assignedSourceId =>
      match assocGet db assignedSourceId with
      | none => db
      | some sourceData =>
        match sourceData.positions.head? with
        | none => db
        | some sourcePos =>
          if (creep.x - sourcePos.x).natAbs ≤ 2 ∧
             (creep.y - sourcePos.y).natAbs ≤ 2 ∧
             creep.roomName = sourceData.roomName then
            assocUpdate db assignedSourceId (fun sd =>
              { sd with positions := markAt creepName game.time creep.x creep.y sd.positions })
          else db

/-- The predicate of the freePositions recount (non-blocked and with a
JS-falsy occupant). -/
def isFreePos (p : SourcePosition) : Bool :=
  !p.isBlocked && strFalsy p.occupiedBy

/-- Recompute freePositions of one source from its positions. -/
def recountFree (sd : SourceData) : SourceData :=
  { sd with freePositions := (sd.positions.filter isFreePos).length }

/-- updateOccupancyStatus: with no assignments every source is cleared and
reset; otherwise only the sources that are the target of some assignment
are cleared, re-marked from the assigned creeps and recounted. -/
def updateOccupancyStatus (game : GameState) (st : PlannerState) :
    List (String × SourceData) :=
  let assignedCreeps := st.assignments.map Prod.fst
  if assignedCreeps.isEmpty then
    st.sourceDatabase.map (fun p =>
      let sd := clearOccupants p.2
      (p.1, { sd with freePositions :=
                (sd.positions.filter (fun q => !q.isBlocked)).length }))
  else
    let activeSources := dedupFirst (st.assignments.map Prod.snd)
    let db1 := activeSources.foldl
      (fun db sid => assocUpdate db sid clearOccupants) st.sourceDatabase
    let db2 := assignedCreeps.foldl (markCreepStep game st.assignments) db1
    activeSources.foldl (fun db sid => assocUpdate db sid recountFree) db2

/-- isRoomAccessible: false when the room is not visible; otherwise free
of controller, mine, or neutral means accessible and third-party owned
means not. -/
def isRoomAccessible (game : GameState) (roomName : String) : Bool :=
  match findRoom game roomName with
  | none => false
  | some room =>
    match room.controller with
    | none => true
    | some controller =>
      if controller.my then true
      else if controller.owner.isSome then false
      else true

/-- A candidate entry built by assignSourceToCreep. -/
structure Candidate where
  sourceId : String
  distance : Int
  freePositions : Nat
  isLocalRoom : Bool
deriving DecidableEq, Repr

/-- RoomPosition.getRangeTo: Chebyshev range inside a room, Infinity
across rooms (modelled as a constant larger than any in-room range). -/
def INFINITE_RANGE : Int := 1000000

/-- Straight-line range from a creep to a source object. -/
def getRangeTo (creep : Creep) (source : SourceObj) : Int :=
  if creep.roomName = source.roomName then
    max (creep.x - source.x).natAbs (creep.y - source.y).natAbs
  else INFINITE_RANGE

/-- The candidate collection loop of assignSourceToCreep: free capacity,
resolvable source object, cross-room permission and accessibility. -/
def collectCandidates (game : GameState) (db : List (String × SourceData))
    (request : HarvestRequest) (creep : Creep) : List Candidate :=
  db.filterMap (fun p =>
    let sourceData := p.2
    if sourceData.freePositions ≤ 0 then none
    else
      match gameGetSource game p.1 with
      | none => none
      | some source =>
        let isLocalRoom := sourceData.roomName == request.roomName
        if !request.allowCrossRoom && !isLocalRoom then none
        else if !isLocalRoom && !(isRoomAccessible game sourceData.roomName) then none
        else some { sourceId := p.1,
                    distance := getRangeTo creep source,
                    freePositions := sourceData.freePositions,
                    isLocalRoom := isLocalRoom })

/-- The sort comparator of assignSourceToCreep: local rooms first, then
descending freePositions, then ascending distance. -/
def candCmp (a b : Candidate) : Int :=
  if a.isLocalRoom ≠ b.isLocalRoom then (if a.isLocalRoom then -1 else 1)
  else if a.freePositions ≠ b.freePositions then
    (b.freePositions : Int) - (a.freePositions : Int)
  else a.distance - b.distance

/-- Stable insertion into a list ordered by candCmp (a new element goes
after every element that does not compare strictly greater). -/
def insertCand (r : Candidate) : List Candidate → List Candidate
  | [] => [r]
  | x :: xs =>
    if candCmp x r ≤ 0 then x :: insertCand r xs else r :: x :: xs

/-- Stable sort by candCmp, the behaviour of the JS Array.sort call with
the comparator above. -/
def sortCands (l : List Candidate) : List Candidate :=
  l.foldl (fun acc r => insertCand r acc) []

/-- assignSourceToCreep: look up the creep, collect candidates, sort with
the comparator and return the id of the first candidate if any. -/
def assignSourceToCreep (game : GameState) (db : List (String × SourceData))
    (request : HarvestRequest) : Option String :=
  match findCreep game request.creepName with
  | none => none
  | some creep =>
    let candidates := collectCandidates game db request creep
    if candidates.isEmpty then none
    else
      match (sortCands candidates).head? with
      | some best => some best.sourceId
      | none => none

/-- The outcome of one resolution pass: the kept queue entries in
processing order, the assignment table, and the emitted
harvest.source_assigned payloads in emission order. -/
structure ProcessOutcome where
  kept : List HarvestRequest
  assignTable : List (String × String)
  emitted : List (String × String × String)
deriving DecidableEq, Repr

/-- The backwards splice loop of processHarvestRequests, written over the
reversed sorted queue so that the head is the request the loop handles
first.  A request whose creep is gone is dropped; an assigned request is
removed, recorded in the table and emitted; everything else is kept. -/
def runRequestsRev (game : GameState) (db : List (String × SourceData)) :
    List HarvestRequest → List (String × String) → ProcessOutcome
  | [], assignTable => { kept := [], assignTable := assignTable, emitted := [] }
  | req :: rest, assignTable =>
    match findCreep game req.creepName with
    | none => runRequestsRev game db rest assignTable
    | some _ =>
      match assignSourceToCreep game db req with
      | some assignedSourceId =>
        let roomName := ((assocGet db assignedSourceId).map
          (fun sd => sd.roomName)).getD ""
        let out := runRequestsRev game db rest
          (assocSet assignTable req.creepName assignedSourceId)
        { out with emitted := (req.creepName, assignedSourceId, roomName) :: out.emitted }
      | none =>
        let out := runRequestsRev game db rest assignTable
        { out with kept := req :: out.kept }

/-- Stable insertion for the ascending-priority sort of the queue. -/
def insertReq (r : HarvestRequest) :
    List HarvestRequest → List HarvestRequest
  | [] => [r]
  | x :: xs =>
    if x.priority ≤ r.priority then x :: insertReq r xs else r :: x :: xs

/-- The Array.sort call on the queue (stable, ascending priority). -/
def sortRequests (l : List HarvestRequest) : List HarvestRequest :=
  l.foldl (fun acc r => insertReq r acc) []

/-- processHarvestRequests: sort the queue ascending by priority, then run
the index loop from the back of the array to the front.  Returns the new
planner state and the emitted assignment signals in order. -/
def processHarvestRequests (game : GameState) (st : PlannerState) :
    PlannerState × List (String × String × String) :=
  if st.harvestRequests.isEmpty then (st, [])
  else
    let sorted := sortRequests st.harvestRequests
    let out := runRequestsRev game st.sourceDatabase sorted.reverse st.assignments
    ({ st with harvestRequests := out.kept.reverse,
               assignments := out.assignTable }, out.emitted)

/-- Split a leading run of digits off a character list (the greedy digit
groups of the room-name pattern). -/
def takeDigits : List Char → List Char × List Char
  | [] => ([], [])
  | c :: cs =>
    if c.isDigit then
      let r := takeDigits cs
      (c :: r.1, r.2)
    else ([], c :: cs)

/-- Digit characters to a number. -/
def digitsToNat (ds : List Char) : Nat :=
  ds.foldl (fun n c => n * 10 + (c.toNat - 48)) 0

/-- The room-name pattern match of getAdjacentRoomNames, for exact
well-formed room names: an E or W hemisphere letter, digits, an N or S
hemisphere letter, digits. -/
def parseRoomName (roomName : String) : Option (Char × Nat × Char × Nat) :=
  match roomName.toList with
  | [] => none
  | c1 :: rest =>
    if c1 = 'E' ∨ c1 = 'W' then
      let r1 := takeDigits rest
      if r1.1.isEmpty then none
      else
        match r1.2 with
        | [] => none
        | c2 :: rest2 =>
          if c2 = 'N' ∨ c2 = 'S' then
            let r2 := takeDigits rest2
            if r2.1.isEmpty then none
            else if r2.2.isEmpty then
              some (c1, digitsToNat r1.1, c2, digitsToNat r2.1)
            else none
          else none
    else none

/-- One direction step of getAdjacentRoomNames: the new hemisphere letters
and coordinates, with the hemisphere flip when a coordinate would go
negative. -/
def adjacentRoomName (ew : Char) (rx : Nat) (ns : Char) (ry : Nat)
    (dx dy : Int) : String :=
  let ex : Char × Nat :=
    if dx ≠ 0 then
      if ew = 'E' then
        let nx : Int := (rx : Int) + dx
        if nx < 0 then ('W', nx.natAbs - 1) else (ew, nx.toNat)
      else
        let nx : Int := (rx : Int) - dx
        if nx < 0 then ('E', nx.natAbs - 1) else (ew, nx.toNat)
    else (ew, rx)
  let ey : Char × Nat :=
    if dy ≠ 0 then
      if ns = 'S' then
        let ny : Int := (ry : Int) + dy
        if ny < 0 then ('N', ny.natAbs - 1) else (ns, ny.toNat)
      else
        let ny : Int := (ry : Int) - dy
        if ny < 0 then ('S', ny.natAbs - 1) else (ns, ny.toNat)
    else (ns, ry)
  String.singleton ex.1 ++ toString ex.2 ++ String.singleton ey.1 ++ toString ey.2

/-- getAdjacentRoomNames: the four cardinal neighbours (north, south,
west, east in source order), empty for an unparsable name. -/
def getAdjacentRoomNames (roomName : String) : List String :=
  match parseRoomName roomName with
  | none => []
  | some q =>
    ([((0 : Int), (-1 : Int)), (0, 1), (-1, 0), (1, 0)]).map
      (fun d => adjacentRoomName q.1 q.2.1 q.2.2.1 q.2.2.2 d.1 d.2)

/-- requestScout: the scout.need_room_vision emissions of one call — empty
when a scout creep already targets the room, otherwise one signal. -/
def requestScout (game : GameState) (targetRoomName fromRoomName : String) :
    List (String × String) :=
  let existingScout := game.creeps.find? (fun c =>
    c.role == "scout" && c.targetRoom == some targetRoomName)
  if existingScout.isSome then [] else [(targetRoomName, fromRoomName)]

/-- The body of the per-adjacent-room loop of scanAdjacentRooms: skip
inaccessible rooms, scout invisible ones, scan the sources of the rest. -/
def scanAdjacentRoomStep (game : GameState) (fromRoom : String)
    (acc : List (String × SourceData) × List (String × String))
    (adjName : String) :
    List (String × SourceData) × List (String × String) :=
  if !(isRoomAccessible game adjName) then acc
  else
    match findRoom game adjName with
    | none => (acc.1, acc.2 ++ requestScout game adjName fromRoom)
    | some adjacentRoom =>
      (adjacentRoom.sources.foldl (fun db s => scanSource game s db) acc.1,
       acc.2)

/-- The body of the per-owned-room loop of scanAdjacentRooms: fill the
adjacency cache if missing, then walk the cached neighbours. -/
def scanAdjacentRoomsFor (game : GameState)
    (acc : PlannerState × List (String × String)) (roomName : String) :
    PlannerState × List (String × String) :=
  let st := acc.1
  let cache :=
    if (assocGet st.adjacentRoomsCache roomName).isNone then
      assocSet st.adjacentRoomsCache roomName (getAdjacentRoomNames roomName)
    else st.adjacentRoomsCache
  let adjacentRooms := (assocGet cache roomName).getD []
  let r := adjacentRooms.foldl (scanAdjacentRoomStep game roomName)
    (st.sourceDatabase, acc.2)
  ({ st with sourceDatabase := r.1, adjacentRoomsCache := cache }, r.2)

/-- scanAdjacentRooms over the owned rooms; returns the new state and the
scout signals emitted during the walk. -/
def scanAdjacentRooms (game : GameState) (st : PlannerState) :
    PlannerState × List (String × String) :=
  let myRooms := (game.rooms.filter (fun room =>
    match room.controller with
    | some c => c.my
    | none => false)).map Room.name
  myRooms.foldl (scanAdjacentRoomsFor game) (st, [])

/-- The three keys saveData writes to global memory.  The request queue is
not among them. -/
structure MemStore where
  sources : Option (List (String × SourceData))
  assignTable : Option (List (String × String))
  adjacentRooms : Option (List (String × List String))
deriving DecidableEq, Repr

/-- saveData: persist the source database, the assignment table and the
adjacency cache. -/
def saveData (st : PlannerState) : MemStore :=
  { sources := some st.sourceDatabase,
    assignTable := some st.assignments,
    adjacentRooms := some st.adjacentRoomsCache }

/-- initializeSourceDatabase: restore the three persisted collections
(defaulting to the empty constructor values when absent), then immediately
rescan all visible sources and the adjacent rooms.  The request queue
always starts empty. -/
def initializeSourceDatabase (game : GameState) (store : MemStore) :
    PlannerState :=
  let st0 : PlannerState :=
    { sourceDatabase := [], harvestRequests := [],
      assignments := [], adjacentRoomsCache := [] }
  let st1 :=
    { st0 with
        sourceDatabase := store.sources.getD st0.sourceDatabase,
        assignments := store.assignTable.getD st0.assignments,
        adjacentRoomsCache := store.adjacentRooms.getD st0.adjacentRoomsCache }
  let st2 := { st1 with sourceDatabase := scanAllSources game st1.sourceDatabase }
  (scanAdjacentRooms game st2).1

/-- Number of non-blocked slots of a node: the usableSlots quantity of
the spec, derived from the current position list. -/
def usableCount (sd : SourceData) : Nat :=
  (sd.positions.filter (fun p => !p.isBlocked)).length

/-- Number of non-blocked slots with a live occupant: the occupiedSlots
quantity of the spec. -/
def occupiedCount (sd : SourceData) : Nat :=
  (sd.positions.filter (fun p => !p.isBlocked && !(strFalsy p.occupiedBy))).length

/-- A node satisfies the per-slot safety part of the occupancy invariant:
no blocked slot carries an occupant. -/
def blockedUnoccupied (sd : SourceData) : Prop :=
  ∀ p ∈ sd.positions, p.isBlocked = true → p.occupiedBy = none

/-- A node whose stored free counter agrees with a recount of its
positions. -/
def freeCounterFresh (sd : SourceData) : Prop :=
  sd.freePositions = (sd.positions.filter isFreePos).length

/-- Modelled from the spec: the candidate condition exactly as the claim
words it — free capacity and (local, or remote allowed and the room
accessible).  It deliberately omits the live-object check the
implementation performs, so that the implemented candidate set can be
compared against the claimed one. -/
def specCandidate (game : GameState) (request : HarvestRequest)
    (sd : SourceData) : Prop :=
  0 < sd.freePositions ∧
    (sd.roomName = request.roomName ∨
      (request.allowCrossRoom = true ∧ isRoomAccessible game sd.roomName = true))

/-- What assignSourceToCreep promises about its selection: the returned
node id names a collected candidate that compares no greater than every
collected candidate, hence is local whenever any candidate is local, has
maximal free capacity within its locality class, and among equals is at
minimal range. -/
def selectionContract (game : GameState) (db : List (String × SourceData))
    (request : HarvestRequest) (sid : String) : Prop :=
  ∃ creep, findCreep game request.creepName = some creep ∧
    ∃ c, c ∈ collectCandidates game db request creep ∧ c.sourceId = sid ∧
      (∀ c2 ∈ collectCandidates game db request creep, candCmp c c2 ≤ 0) ∧
      (∀ c2 ∈ collectCandidates game db request creep,
        c2.isLocalRoom = true → c.isLocalRoom = true) ∧
      (∀ c2 ∈ collectCandidates game db request creep,
        c2.isLocalRoom = c.isLocalRoom →
          c2.freePositions ≤ c.freePositions ∧
          (c2.freePositions = c.freePositions → c.distance ≤ c2.distance))

/-- Fallback record for safe lookups in concrete examples. -/
def exDummySD : SourceData :=
  { sourceId := "", roomName := "", positions := [], totalPositions := 0,
    freePositions := 0, lastScanned := 0 }

/-- An empty game environment (no creeps, no visible rooms). -/
def exGameNone : GameState := { time := 0, creeps := [], rooms := [] }

/-- A flat owned room with two sources. -/
def exRoom1 : Room :=
  { name := "E1N1", controller := some { my := true, owner := some "me" },
    sources := [{ id := "s1", roomName := "E1N1", x := 25, y := 25 },
                { id := "s4", roomName := "E1N1", x := 10, y := 10 }],
    terrainWall := fun _ _ => false }

/-- A game with two worker creeps in the owned room. -/
def exGame1 : GameState :=
  { time := 7,
    creeps := [{ name := "a", roomName := "E1N1", x := 24, y := 25,
                 role := "", targetRoom := none },
               { name := "b", roomName := "E1N1", x := 5, y := 5,
                 role := "", targetRoom := none }],
    rooms := [exRoom1] }

/-- A node record with the given free count (positions irrelevant for the
resolver, which reads only the counters and the room). -/
def exNode (id room : String) (free : Nat) : SourceData :=
  { sourceId := id, roomName := room, positions := [], totalPositions := 8,
    freePositions := free, lastScanned := 0 }

/-- A node carrying a stale ghost occupant and a stale free counter. -/
def exGhost : SourceData :=
  { sourceId := "sB", roomName := "E1N1",
    positions := [{ x := 1, y := 1, isBlocked := false,
                    occupiedBy := some "ghost", lastUpdated := 0 }],
    totalPositions := 1, freePositions := 0, lastScanned := 0 }

/-- A game holding one visible room with one fresh source on open
terrain. -/
def exScanGame : GameState :=
  { time := 5, creeps := [],
    rooms := [{ name := "E1N1", controller := none,
                sources := [{ id := "sZ", roomName := "E1N1", x := 25, y := 25 }],
                terrainWall := fun _ _ => false }] }

/-- The database entry produced by scanning the fresh source into an
empty database. -/
def exScanned : SourceData :=
  (assocGet (scanSource exScanGame
    { id := "sZ", roomName := "E1N1", x := 25, y := 25 } []) "sZ").getD exDummySD

/-- A planner state holding the freshly scanned node and no
assignments. -/
def exStC1 : PlannerState :=
  { sourceDatabase := [("sZ", exScanned)], harvestRequests := [],
    assignments := [], adjacentRoomsCache := [] }

/-- The node record after the occupancy update of the no-assignment
state. -/
def exC1sd : SourceData :=
  (assocGet (updateOccupancyStatus exGameNone exStC1) "sZ").getD exDummySD

/-- A planner state where worker a is assigned to node sA while node sB
holds a stale ghost occupant and no assignment. -/
def exSt9 : PlannerState :=
  { sourceDatabase := [("sA", exNode "sA" "E1N1" 4), ("sB", exGhost)],
    harvestRequests := [], assignments := [("a", "sA")],
    adjacentRoomsCache := [] }

/-- Database for the C2 witness: two local nodes with 1 and 4 free
slots. -/
def exDb2 : List (String × SourceData) :=
  [("s1", exNode "s1" "E1N1" 1), ("s4", exNode "s4" "E1N1" 4)]

/-- A local-only request by worker a. -/
def exReqA : HarvestRequest :=
  { creepName := "a", roomName := "E1N1", requestTime := 0, priority := 1,
    allowCrossRoom := false }

/-- The remote room visible to the C2 counterexample game. -/
def exRoomR : Room :=
  { name := "E2N1", controller := none,
    sources := [{ id := "sR", roomName := "E2N1", x := 30, y := 30 }],
    terrainWall := fun _ _ => false }

/-- A game in which the requester walked into the remote room, so its
home region E1N1 is no longer visible. -/
def exGameX : GameState :=
  { time := 7,
    creeps := [{ name := "a", roomName := "E2N1", x := 24, y := 25,
                 role := "", targetRoom := none }],
    rooms := [exRoomR] }

/-- The local node of the C2 counterexample: plenty of free capacity but
its source object no longer resolves (room invisible). -/
def exSDL : SourceData := exNode "sL" "E1N1" 4

/-- Database for the C2 counterexample: the invisible local node and a
visible remote node with a single free slot. -/
def exDbX : List (String × SourceData) :=
  [("sL", exSDL), ("sR", exNode "sR" "E2N1" 1)]

/-- The remote-allowed request naming home region E1N1. -/
def exReqX : HarvestRequest :=
  { creepName := "a", roomName := "E1N1", requestTime := 0, priority := 5,
    allowCrossRoom := true }

/-- A request by worker b with the least urgent priority 9. -/
def exReqB : HarvestRequest :=
  { creepName := "b", roomName := "E1N1", requestTime := 0, priority := 9,
    allowCrossRoom := false }

/-- A planner state with one single-slot node and two queued requests of
priorities 1 and 9. -/
def exStDouble : PlannerState :=
  { sourceDatabase := [("s1", exNode "s1" "E1N1" 1)],
    harvestRequests := [exReqA, exReqB], assignments := [],
    adjacentRoomsCache := [] }

/-- A planner state with a non-empty request queue. -/
def exStQueue : PlannerState :=
  { sourceDatabase := [], harvestRequests := [exReqA], assignments := [],
    adjacentRoomsCache := [] }

/-- The queued entry of the C6 witness. -/
def exE6 : HarvestRequest :=
  { creepName := "c", roomName := "E1N1", requestTime := 3, priority := 4,
    allowCrossRoom := false }

/-- A planner state whose queue holds the single entry of worker c. -/
def exSt6 : PlannerState :=
  { sourceDatabase := [], harvestRequests := [exE6], assignments := [],
    adjacentRoomsCache := [] }

/-- A resubmission by worker c naming the same region with a more urgent
priority. -/
def exD6 : HarvestSignalData :=
  { creepName := "c", roomName := "E1N1", priority := some 2,
    allowCrossRoom := none }

/-- An empty game at tick 9, used to observe the refreshed timestamp. -/
def exGame9 : GameState := { time := 9, creeps := [], rooms := [] }

/-- An empty planner state. -/
def exSt0 : PlannerState :=
  { sourceDatabase := [], harvestRequests := [], assignments := [],
    adjacentRoomsCache := [] }

/-- A game containing only worker c. -/
def exGameC : GameState :=
  { time := 9,
    creeps := [{ name := "c", roomName := "E1N1", x := 0, y := 0,
                 role := "", targetRoom := none }],
    rooms := [] }

/-- A submission by worker c naming region E1N1. -/
def exD6a : HarvestSignalData :=
  { creepName := "c", roomName := "E1N1", priority := some 4,
    allowCrossRoom := none }

/-- A resubmission by worker c naming region E2N1. -/
def exD6b : HarvestSignalData :=
  { creepName := "c", roomName := "E2N1", priority := some 4,
    allowCrossRoom := none }

/-- A request created at tick 50 (age 100 at tick 150). -/
def exReqKeep : HarvestRequest :=
  { creepName := "k", roomName := "E1N1", requestTime := 50, priority := 5,
    allowCrossRoom := false }

/-- A request created at tick 40 (age 110 at tick 150). -/
def exReqDrop : HarvestRequest :=
  { creepName := "o", roomName := "E1N1", requestTime := 40, priority := 5,
    allowCrossRoom := false }

/-- The queue of the C7 witness. -/
def exReqs7 : List HarvestRequest := [exReqKeep, exReqDrop]

/-- A planner state whose only node is saturated, with one queued
request. -/
def exSt7 : PlannerState :=
  { sourceDatabase := [("s1", exNode "s1" "E1N1" 0)],
    harvestRequests := [exReqA], assignments := [],
    adjacentRoomsCache := [] }

/-- A request created at tick 0. -/
def exReqT0 : HarvestRequest :=
  { creepName := "t", roomName := "E1N1", requestTime := 0, priority := 5,
    allowCrossRoom := false }

/-- A submission with priority 0 and absent remote-allowed flag. -/
def exD10 : HarvestSignalData :=
  { creepName := "a", roomName := "E1N1", priority := some 0,
    allowCrossRoom := none }

/-- Free, occupied and usable slot counts partition the non-blocked
positions. -/
theorem free_add_occupied (l : List SourcePosition) :
    (l.filter isFreePos).length +
      (l.filter (fun p => !p.isBlocked && !(strFalsy p.occupiedBy))).length =
      (l.filter (fun p => !p.isBlocked)).length := by
  induction l with
  | nil => rfl
  | cons p ps ih =>
    simp only [List.filter_cons]
    cases hb : p.isBlocked <;> cases hf : strFalsy p.occupiedBy <;>
      simp [isFreePos, hb, hf] <;> omega

/-- Membership in an updated association list comes either from an update
of the named key or untouched from the original list. -/
theorem mem_assocUpdate {l : List (String × α)} {k : String} {f : α → α}
    {sid : String} {v : α} (h : (sid, v) ∈ assocUpdate l k f) :
    (sid = k ∧ ∃ v0, (sid, v0) ∈ l ∧ v = f v0) ∨ (sid ≠ k ∧ (sid, v) ∈ l) := by
  unfold assocUpdate at h
  obtain ⟨p0, hp0, heq⟩ := List.mem_map.mp h
  obtain ⟨k0, v0⟩ := p0
  by_cases hk : (k0 == k) = true
  · rw [if_pos hk] at heq
    injection heq with h1 h2
    subst h1
    left
    exact ⟨(beq_iff_eq ..).mp hk, v0, hp0, h2.symm⟩
  · rw [if_neg hk] at heq
    injection heq with h1 h2
    subst h1
    subst h2
    right
    refine ⟨?_, hp0⟩
    intro hcon
    exact hk (by simp [hcon])

/-- An entry with a different key survives an association-list update. -/
theorem mem_assocUpdate_of_ne {l : List (String × α)} {k : String}
    {f : α → α} {sid : String} {v : α} (hne : sid ≠ k)
    (h : (sid, v) ∈ l) : (sid, v) ∈ assocUpdate l k f := by
  unfold assocUpdate
  refine List.mem_map.mpr ⟨(sid, v), h, ?_⟩
  simp [hne]

/-- An entry whose key is outside the folded key list is untouched by a
fold of association-list updates. -/
theorem foldl_assocUpdate_untouched (f : α → α) :
    ∀ (ks : List String) (db : List (String × α)) (sid : String) (v : α),
      (sid, v) ∈ ks.foldl (fun d k => assocUpdate d k f) db → sid ∉ ks →
      (sid, v) ∈ db := by
  intro ks
  induction ks with
  | nil => intro db sid v h _; exact h
  | cons k ks ih =>
    intro db sid v h hout
    have h1 : (sid, v) ∈ assocUpdate db k f :=
      ih _ _ _ h (fun hc => hout (List.mem_cons_of_mem _ hc))
    rcases mem_assocUpdate h1 with ⟨rfl, _⟩ | ⟨_, h2⟩
    · exact absurd (List.mem_cons_self ..) hout
    · exact h2

/-- A fold of association-list updates establishes, for every entry whose
key was folded over, any property that the update function always
produces. -/
theorem foldl_assocUpdate_establishes (f : α → α) (Pr : α → Prop)
    (hf : ∀ v, Pr (f v)) :
    ∀ (ks : List String) (db : List (String × α)) (sid : String) (v : α),
      (sid, v) ∈ ks.foldl (fun d k => assocUpdate d k f) db → sid ∈ ks →
      Pr v := by
  intro ks
  induction ks with
  | nil => intro db sid v _ hin; cases hin
  | cons k ks ih =>
    intro db sid v h hin
    by_cases hks : sid ∈ ks
    · exact ih _ _ _ h hks
    · have hk : sid = k := by
        rcases List.mem_cons.mp hin with h1 | h1
        · exact h1
        · exact absurd h1 hks
      have h1 : (sid, v) ∈ assocUpdate db k f :=
        foldl_assocUpdate_untouched f ks _ _ _ h hks
      rcases mem_assocUpdate h1 with ⟨_, v0, _, rfl⟩ | ⟨hne, _⟩
      · exact hf v0
      · exact absurd hk hne

/-- A fold of association-list updates preserves any per-entry property
that the update function preserves. -/
theorem foldl_assocUpdate_preserves (f : α → α) (Pr : α → Prop)
    (S : String → Prop) (hf : ∀ v, Pr v → Pr (f v)) :
    ∀ (ks : List String) (db : List (String × α)),
      (∀ sid v, (sid, v) ∈ db → S sid → Pr v) →
      ∀ sid v, (sid, v) ∈ ks.foldl (fun d k => assocUpdate d k f) db →
      S sid → Pr v := by
  intro ks
  induction ks with
  | nil => intro db hdb sid v h hS; exact hdb _ _ h hS
  | cons k ks ih =>
    intro db hdb sid v h hS
    refine ih _ ?_ _ _ h hS
    intro sid v hmem hS
    rcases mem_assocUpdate hmem with ⟨_, v0, hv0, rfl⟩ | ⟨_, h2⟩
    · exact hf v0 (hdb _ _ hv0 hS)
    · exact hdb _ _ h2 hS

/-- First-occurrence deduplication preserves membership. -/
theorem mem_dedupFirstAux :
    ∀ (l acc : List String) (x : String),
      x ∈ dedupFirstAux l acc ↔ x ∈ acc ∨ x ∈ l := by
  intro l
  induction l with
  | nil => intro acc x; simp [dedupFirstAux]
  | cons y ys ih =>
    intro acc x
    unfold dedupFirstAux
    by_cases hy : y ∈ acc
    · rw [if_pos hy, ih]
      constructor
      · rintro (h | h)
        · exact Or.inl h
        · exact Or.inr (List.mem_cons_of_mem _ h)
      · rintro (h | h)
        · exact Or.inl h
        · rcases List.mem_cons.mp h with rfl | h2
          · exact Or.inl hy
          · exact Or.inr h2
    · rw [if_neg hy, ih]
      simp [List.mem_cons]
      tauto

/-- Membership in a JS-Set style deduplication equals membership in the
original list. -/
theorem mem_dedupFirst (l : List String) (x : String) :
    x ∈ dedupFirst l ↔ x ∈ l := by
  unfold dedupFirst
  rw [mem_dedupFirstAux]
  exact ⟨fun h => h.elim (fun h1 => absurd h1 (List.not_mem_nil x)) id, Or.inr⟩

/-- A successful association-list lookup returns one of the stored
values. -/
theorem assocGet_mem_values {l : List (String × α)} {k : String} {v : α}
    (h : assocGet l k = some v) : v ∈ l.map Prod.snd := by
  unfold assocGet at h
  rcases hf : l.find? (fun p => p.1 == k) with _ | p
  · rw [hf] at h; cases h
  · rw [hf] at h
    obtain rfl : p.2 = v := by simpa using h
    exact List.mem_map.mpr ⟨p, List.mem_of_find?_eq_some hf, rfl⟩

/-- Marking an occupant never writes to a blocked position. -/
theorem markAt_preserves_blocked (cn : String) (t : Nat) (cx cy : Int) :
    ∀ (l : List SourcePosition),
      (∀ p ∈ l, p.isBlocked = true → p.occupiedBy = none) →
      ∀ p ∈ markAt cn t cx cy l, p.isBlocked = true → p.occupiedBy = none := by
  intro l
  induction l with
  | nil =>
    intro _ p hp
    simp [markAt] at hp
  | cons q qs ih =>
    intro h p hp
    unfold markAt at hp
    by_cases hc : q.x = cx ∧ q.y = cy ∧ !q.isBlocked
    · rw [if_pos hc] at hp
      rcases List.mem_cons.mp hp with rfl | h1
      · intro hb
        exact absurd hb (by simpa using hc.2.2)
      · exact h p (List.mem_cons_of_mem _ h1)
    · rw [if_neg hc] at hp
      rcases List.mem_cons.mp hp with rfl | h1
      · exact h p (List.mem_cons_self ..)
      · exact ih (fun r hr => h r (List.mem_cons_of_mem _ hr)) p h1

/-- Clearing all occupants yields a node whose blocked positions are
unoccupied. -/
theorem clearOccupants_blockedUnoccupied (sd : SourceData) :
    blockedUnoccupied (clearOccupants sd) := by
  intro p hp _
  obtain ⟨q, _, rfl⟩ := List.mem_map.mp hp
  rfl

/-- One step of the assigned-creep marking loop preserves the
blocked-slot safety of every tracked entry, for any key set that is
closed under assignment values. -/
theorem markCreepStep_preserves (game : GameState)
    (asg : List (String × String)) (S : String → Prop)
    (db : List (String × SourceData)) (cn : String)
    (h : ∀ sid sd, (sid, sd) ∈ db → S sid → blockedUnoccupied sd) :
    ∀ sid sd, (sid, sd) ∈ markCreepStep game asg db cn → S sid →
      blockedUnoccupied sd := by
  intro sid sd hmem hS
  unfold markCreepStep at hmem
  split at hmem
  · exact h _ _ hmem hS
  · split at hmem
    · exact h _ _ hmem hS
    · split at hmem
      · exact h _ _ hmem hS
      · split at hmem
        · exact h _ _ hmem hS
        · split at hmem
          · rcases mem_assocUpdate hmem with ⟨heq, v0, hv0, rfl⟩ | ⟨_, h2⟩
            · exact markAt_preserves_blocked _ _ _ _ _ (h _ _ (heq ▸ hv0) hS)
            · exact h _ _ h2 hS
          · exact h _ _ hmem hS

/-- The whole marking loop preserves blocked-slot safety of tracked
entries. -/
theorem markLoop_preserves (game : GameState)
    (asg : List (String × String)) (S : String → Prop) :
    ∀ (cns : List String) (db : List (String × SourceData)),
      (∀ sid sd, (sid, sd) ∈ db → S sid → blockedUnoccupied sd) →
      ∀ sid sd, (sid, sd) ∈ cns.foldl (markCreepStep game asg) db → S sid →
        blockedUnoccupied sd := by
  intro cns
  induction cns with
  | nil => intro db h sid sd hmem hS; exact h _ _ hmem hS
  | cons cn cns ih =>
    intro db h sid sd hmem hS
    exact ih _ (markCreepStep_preserves game asg S db cn h) _ _ hmem hS

/-- The freePositions recount leaves the position list unchanged and
makes the free counter fresh. -/
theorem recountFree_fresh (sd : SourceData) :
    freeCounterFresh (recountFree sd) := rfl

/-- The recount also preserves blocked-slot safety (it does not touch
positions). -/
theorem recountFree_preserves_blocked (sd : SourceData)
    (h : blockedUnoccupied sd) : blockedUnoccupied (recountFree sd) := h

/-- After updateOccupancyStatus, every node that the update recomputed —
every node when the assignment table is empty, and every node that is the
target of at least one assignment otherwise — has a fresh free counter
and no occupant on a blocked slot. -/
theorem updateOccupancy_recomputed (game : GameState) (st : PlannerState)
    (sid : String) (sd : SourceData)
    (hmem : (sid, sd) ∈ updateOccupancyStatus game st)
    (hact : st.assignments = [] ∨ sid ∈ st.assignments.map Prod.snd) :
    freeCounterFresh sd ∧ blockedUnoccupied sd := by
  unfold updateOccupancyStatus at hmem
  cases hA : st.assignments with
  | nil =>
    rw [hA] at hmem
    simp only [List.map_nil, List.isEmpty_nil, if_true] at hmem
    obtain ⟨p0, _, heq⟩ := List.mem_map.mp hmem
    obtain ⟨h1, h2⟩ : p0.1 = sid ∧ _ = sd := by
      constructor
      · exact congrArg Prod.fst heq
      · exact congrArg Prod.snd heq
    constructor
    · rw [← h2]
      show _ = _
      simp only [clearOccupants]
      refine congrArg List.length (List.filter_congr ?_)
      intro p hp
      obtain ⟨q, _, rfl⟩ := List.mem_map.mp hp
      simp [isFreePos, strFalsy]
    · rw [← h2]
      intro p hp _
      obtain ⟨q, _, rfl⟩ := List.mem_map.mp hp
      rfl
  | cons a asgTail =>
    have hne : ¬ (st.assignments.map Prod.fst).isEmpty = true := by
      rw [hA]; simp
    rw [if_neg hne] at hmem
    have hsid : sid ∈ dedupFirst (st.assignments.map Prod.snd) := by
      rcases hact with h1 | h1
      · rw [h1] at hA; cases hA
      · exact (mem_dedupFirst ..).mpr h1
    constructor
    · exact foldl_assocUpdate_establishes recountFree freeCounterFresh
        recountFree_fresh _ _ _ _ hmem hsid
    · have hdb1 : ∀ s2 sd2,
          (s2, sd2) ∈ (dedupFirst (st.assignments.map Prod.snd)).foldl
            (fun db s => assocUpdate db s clearOccupants) st.sourceDatabase →
          s2 ∈ dedupFirst (st.assignments.map Prod.snd) →
          blockedUnoccupied sd2 :=
        fun s2 sd2 h2 h3 =>
          foldl_assocUpdate_establishes clearOccupants blockedUnoccupied
            clearOccupants_blockedUnoccupied _ _ _ _ h2 h3
      have hdb2 := markLoop_preserves game st.assignments
        (fun s => s ∈ dedupFirst (st.assignments.map Prod.snd))
        (st.assignments.map Prod.fst) _ hdb1
      have hdb3 := foldl_assocUpdate_preserves recountFree blockedUnoccupied
        (fun s => s ∈ dedupFirst (st.assignments.map Prod.snd))
        recountFree_preserves_blocked
        (dedupFirst (st.assignments.map Prod.snd)) _ hdb2
      exact hdb3 _ _ hmem hsid

/-- The candidate comparator is reflexively non-positive. -/
theorem candCmp_self (a : Candidate) : candCmp a a ≤ 0 := by
  simp [candCmp]

/-- The candidate comparator is total. -/
theorem candCmp_total (a b : Candidate) :
    candCmp a b ≤ 0 ∨ candCmp b a ≤ 0 := by
  obtain ⟨ia, da, fa, la⟩ := a
  obtain ⟨ib, db2, fb, lb⟩ := b
  simp only [candCmp]
  cases la <;> cases lb <;> by_cases hf : fa = fb <;>
    simp [hf, eq_comm] <;> omega

/-- The candidate comparator is transitive on its non-positive cone. -/
theorem candCmp_trans (a b c : Candidate) (h1 : candCmp a b ≤ 0)
    (h2 : candCmp b c ≤ 0) : candCmp a c ≤ 0 := by
  obtain ⟨ia, da, fa, la⟩ := a
  obtain ⟨ib, db2, fb, lb⟩ := b
  obtain ⟨ic, dc, fc, lc⟩ := c
  simp only [candCmp] at h1 h2 ⊢
  cases la <;> cases lb <;> cases lc <;>
    by_cases hf1 : fa = fb <;> by_cases hf2 : fb = fc <;>
    by_cases hf3 : fa = fc <;>
    simp_all [eq_comm] <;> omega

/-- Membership through stable insertion. -/
theorem mem_insertCand (r x : Candidate) :
    ∀ (l : List Candidate), x ∈ insertCand r l ↔ x = r ∨ x ∈ l := by
  intro l
  induction l with
  | nil => simp [insertCand]
  | cons y ys ih =>
    unfold insertCand
    by_cases hc : candCmp y r ≤ 0
    · rw [if_pos hc]
      simp [List.mem_cons, ih]
      tauto
    · rw [if_neg hc]
      simp [List.mem_cons]

/-- Stable insertion preserves pairwise ordering by the comparator. -/
theorem pairwise_insertCand (r : Candidate) :
    ∀ (l : List Candidate),
      l.Pairwise (fun a b => candCmp a b ≤ 0) →
      (insertCand r l).Pairwise (fun a b => candCmp a b ≤ 0) := by
  intro l
  induction l with
  | nil =>
    intro _
    simp [insertCand]
  | cons y ys ih =>
    intro h
    obtain ⟨hy, hys⟩ := List.pairwise_cons.mp h
    unfold insertCand
    by_cases hc : candCmp y r ≤ 0
    · rw [if_pos hc]
      refine List.pairwise_cons.mpr ⟨?_, ih hys⟩
      intro z hz
      rcases (mem_insertCand r z ys).mp hz with rfl | hz2
      · exact hc
      · exact hy z hz2
    · rw [if_neg hc]
      have hr : candCmp r y ≤ 0 := (candCmp_total y r).resolve_left hc
      refine List.pairwise_cons.mpr ⟨?_, h⟩
      intro z hz
      rcases List.mem_cons.mp hz with rfl | hz2
      · exact hr
      · exact candCmp_trans r y z hr (hy z hz2)

/-- Membership through the stable sort equals membership in the input. -/
theorem mem_sortCands_aux :
    ∀ (l acc : List Candidate) (x : Candidate),
      x ∈ l.foldl (fun acc r => insertCand r acc) acc ↔ x ∈ acc ∨ x ∈ l := by
  intro l
  induction l with
  | nil => intro acc x; simp
  | cons y ys ih =>
    intro acc x
    simp only [List.foldl_cons]
    rw [ih, mem_insertCand]
    simp [List.mem_cons]
    tauto

/-- Sorting keeps exactly the input candidates. -/
theorem mem_sortCands (l : List Candidate) (x : Candidate) :
    x ∈ sortCands l ↔ x ∈ l := by
  unfold sortCands
  rw [mem_sortCands_aux]
  exact ⟨fun h => h.elim (fun h1 => absurd h1 (List.not_mem_nil x)) id, Or.inr⟩

/-- The sorted list is pairwise ordered by the comparator. -/
theorem pairwise_sortCands (l : List Candidate) :
    (sortCands l).Pairwise (fun a b => candCmp a b ≤ 0) := by
  unfold sortCands
  suffices h : ∀ (acc : List Candidate),
      acc.Pairwise (fun a b => candCmp a b ≤ 0) →
      (l.foldl (fun acc r => insertCand r acc) acc).Pairwise
        (fun a b => candCmp a b ≤ 0) by
    exact h [] (List.Pairwise.nil)
  induction l with
  | nil => intro acc h; exact h
  | cons y ys ih =>
    intro acc h
    simp only [List.foldl_cons]
    exact ih _ (pairwise_insertCand y acc h)

/-- The head of the sorted candidate list compares no greater than every
input candidate. -/
theorem sortCands_head_min (l : List Candidate) (best : Candidate)
    (rest : List Candidate) (h : sortCands l = best :: rest) :
    ∀ x ∈ l, candCmp best x ≤ 0 := by
  intro x hx
  have hx2 : x ∈ best :: rest := h ▸ (mem_sortCands l x).mpr hx
  rcases List.mem_cons.mp hx2 with rfl | hx3
  · exact candCmp_self x
  · have hp := pairwise_sortCands l
    rw [h] at hp
    exact (List.pairwise_cons.mp hp).1 x hx3

/-- Unfolding one comparison: what it means for the head to compare no
greater than another candidate. -/
theorem candCmp_le_elim (a b : Candidate) (h : candCmp a b ≤ 0) :
    (b.isLocalRoom = true → a.isLocalRoom = true) ∧
    (a.isLocalRoom = b.isLocalRoom →
      b.freePositions ≤ a.freePositions ∧
      (b.freePositions = a.freePositions → a.distance ≤ b.distance)) := by
  obtain ⟨ia, da, fa, la⟩ := a
  obtain ⟨ib, db2, fb, lb⟩ := b
  simp only [candCmp] at h
  cases la <;> cases lb <;> by_cases hf : fa = fb <;>
    simp_all [eq_comm]

/-- When every node of the database is saturated, the candidate loop
collects nothing. -/
theorem collectCandidates_saturated (game : GameState)
    (db : List (String × SourceData)) (request : HarvestRequest)
    (creep : Creep) (h : ∀ sid sd, (sid, sd) ∈ db → sd.freePositions = 0) :
    collectCandidates game db request creep = [] := by
  unfold collectCandidates
  rw [List.filterMap_eq_nil_iff]
  intro p hp
  obtain ⟨k, sd⟩ := p
  have h0 := h k sd hp
  simp [h0]

/-- When every node is saturated the resolver assigns nothing. -/
theorem assign_saturated (game : GameState)
    (db : List (String × SourceData)) (request : HarvestRequest)
    (h : ∀ sid sd, (sid, sd) ∈ db → sd.freePositions = 0) :
    assignSourceToCreep game db request = none := by
  unfold assignSourceToCreep
  rcases hc : findCreep game request.creepName with _ | creep
  · rfl
  · dsimp only
    rw [collectCandidates_saturated game db request creep h]
    rfl

/-- When every node is saturated a resolution pass neither assigns nor
emits. -/
theorem runRequestsRev_saturated (game : GameState)
    (db : List (String × SourceData))
    (h : ∀ sid sd, (sid, sd) ∈ db → sd.freePositions = 0) :
    ∀ (reqs : List HarvestRequest) (asg : List (String × String)),
      (runRequestsRev game db reqs asg).assignTable = asg ∧
      (runRequestsRev game db reqs asg).emitted = [] := by
  intro reqs
  induction reqs with
  | nil => intro asg; exact ⟨rfl, rfl⟩
  | cons r rest ih =>
    intro asg
    unfold runRequestsRev
    rcases hc : findCreep game r.creepName with _ | creep
    · exact ih asg
    · rw [assign_saturated game db r h]
      exact ih asg

/-- Membership in the queue after a timeout sweep: exactly the requests
whose age does not exceed the timeout remain. -/
theorem mem_cleanupTimeout (t : Nat) (reqs : List HarvestRequest)
    (r : HarvestRequest) :
    r ∈ cleanupTimeoutRequests t reqs ↔
      r ∈ reqs ∧ t - r.requestTime ≤ REQUEST_TIMEOUT := by
  unfold cleanupTimeoutRequests
  rw [List.mem_filter]
  constructor
  · rintro ⟨h1, h2⟩
    refine ⟨h1, ?_⟩
    simp at h2
    omega
  · rintro ⟨h1, h2⟩
    refine ⟨h1, ?_⟩
    simp
    omega

/-- An entry with a key outside the folded key list survives a fold of
association-list updates unchanged. -/
theorem foldl_assocUpdate_keeps (f : α → α) :
    ∀ (ks : List String) (db : List (String × α)) (sid : String) (v : α),
      (sid, v) ∈ db → sid ∉ ks →
      (sid, v) ∈ ks.foldl (fun d k => assocUpdate d k f) db := by
  intro ks
  induction ks with
  | nil => intro db sid v h _; exact h
  | cons k ks ih =>
    intro db sid v h hout
    refine ih _ _ _ (mem_assocUpdate_of_ne ?_ h)
      (fun hc => hout (List.mem_cons_of_mem _ hc))
    intro hc
    exact hout (hc ▸ List.mem_cons_self ..)

/-- One marking step leaves every entry whose key is not an assignment
value untouched. -/
theorem markCreepStep_keeps (game : GameState)
    (asg : List (String × String)) (db : List (String × SourceData))
    (cn : String) (sid : String) (sd : SourceData)
    (h : (sid, sd) ∈ db) (hout : sid ∉ asg.map Prod.snd) :
    (sid, sd) ∈ markCreepStep game asg db cn := by
  unfold markCreepStep
  split
  · exact h
  · split
    · exact h
    · split
      · exact h
      · split
        · exact h
        · split
          · rename_i x1 creep heq1 x2 asid heq2 x3 sdata heq3 x4 spos heq4 hcond
            refine mem_assocUpdate_of_ne ?_ h
            intro hc
            exact hout (hc ▸ assocGet_mem_values heq2)
          · exact h

/-- The whole marking loop leaves entries with keys outside the
assignment values untouched. -/
theorem markLoop_keeps (game : GameState) (asg : List (String × String)) :
    ∀ (cns : List String) (db : List (String × SourceData)) (sid : String)
      (sd : SourceData), (sid, sd) ∈ db → sid ∉ asg.map Prod.snd →
      (sid, sd) ∈ cns.foldl (markCreepStep game asg) db := by
  intro cns
  induction cns with
  | nil => intro db sid sd h _; exact h
  | cons cn cns ih =>
    intro db sid sd h hout
    exact ih _ _ _ (markCreepStep_keeps game asg db cn sid sd h hout) hout

/-- A room that passes the accessibility check is visible. -/
theorem isRoomAccessible_visible (game : GameState) (roomName : String)
    (h : isRoomAccessible game roomName = true) :
    (findRoom game roomName).isSome := by
  rcases hf : findRoom game roomName with _ | room
  · exfalso
    unfold isRoomAccessible at h
    rw [hf] at h
    exact Bool.noConfusion h
  · rfl

/-- One adjacent-room step never emits a scout signal: the invisible-room
branch that would call requestScout is unreachable because the
accessibility check already returned false for invisible rooms. -/
theorem scanAdjacentRoomStep_emits (game : GameState) (fromRoom : String)
    (acc : List (String × SourceData) × List (String × String))
    (adjName : String) :
    (scanAdjacentRoomStep game fromRoom acc adjName).2 = acc.2 := by
  unfold scanAdjacentRoomStep
  by_cases ha : isRoomAccessible game adjName = true
  · rw [if_neg (by simp [ha])]
    have hvis := isRoomAccessible_visible game adjName ha
    rcases hf : findRoom game adjName with _ | room
    · rw [hf] at hvis
      exact Bool.noConfusion hvis
    · rfl
  · rw [if_pos (by simp [Bool.not_eq_true] at ha ⊢; exact ha)]

/-- The inner fold over adjacent rooms never extends the emission list. -/
theorem scanAdjacent_inner_emits (game : GameState) (fromRoom : String) :
    ∀ (adj : List String)
      (acc : List (String × SourceData) × List (String × String)),
      (adj.foldl (scanAdjacentRoomStep game fromRoom) acc).2 = acc.2 := by
  intro adj
  induction adj with
  | nil => intro acc; rfl
  | cons a rest ih =>
    intro acc
    simp only [List.foldl_cons]
    rw [ih, scanAdjacentRoomStep_emits]

/-- One owned-room step of the adjacency scan never extends the emission
list. -/
theorem scanAdjacentRoomsFor_emits (game : GameState)
    (acc : PlannerState × List (String × String)) (roomName : String) :
    (scanAdjacentRoomsFor game acc roomName).2 = acc.2 := by
  unfold scanAdjacentRoomsFor
  exact scanAdjacent_inner_emits game roomName _ _

/-- The outer fold over owned rooms never extends the emission list. -/
theorem scanAdjacentRooms_foldl_emits (game : GameState) :
    ∀ (rooms : List String) (acc : PlannerState × List (String × String)),
      (rooms.foldl (scanAdjacentRoomsFor game) acc).2 = acc.2 := by
  intro rooms
  induction rooms with
  | nil => intro acc; rfl
  | cons r rest ih =>
    intro acc
    simp only [List.foldl_cons]
    rw [ih, scanAdjacentRoomsFor_emits]

/-- C1 (amended).  After updateOccupancyStatus, every node the update
recomputes — every node when the assignment table is empty, and every
node that is the target of at least one assignment otherwise — satisfies
occupiedSlots + freeSlots = usableSlots and has no occupant on a blocked
slot.  (The claim as frozen also asserts the sum immediately after a
terrain rescan and for zero-assignment nodes while other nodes hold
assignments; both fail on the code, see the counterexample.) -/
theorem claim1_occupancy_invariant (game : GameState) (st : PlannerState)
    (sid : String) (sd : SourceData)
    (hmem : (sid, sd) ∈ updateOccupancyStatus game st)
    (hact : st.assignments = [] ∨ sid ∈ st.assignments.map Prod.snd) :
    occupiedCount sd + sd.freePositions = usableCount sd ∧
    ∀ p ∈ sd.positions, p.isBlocked = true → p.occupiedBy = none := by
  obtain ⟨hQ, hP⟩ := updateOccupancy_recomputed game st sid sd hmem hact
  refine ⟨?_, hP⟩
  have hsum := free_add_occupied sd.positions
  unfold freeCounterFresh at hQ
  unfold occupiedCount usableCount
  omega

/-- Witness for C1 at a concrete recomputed node. -/
theorem claim1_occupancy_invariant_witness :
    occupiedCount exC1sd + exC1sd.freePositions = usableCount exC1sd ∧
    ∀ p ∈ exC1sd.positions, p.isBlocked = true → p.occupiedBy = none :=
  claim1_occupancy_invariant exGameNone exStC1 "sZ" exC1sd (by decide)
    (Or.inl rfl)

/-- Counterexample to C1 as frozen: immediately after a terrain rescan
(scanSource) of a fresh source, the stored freeSlots is 0 while the node
has 8 usable and 0 occupied slots, so the sum invariant fails. -/
theorem claim1_counterexample :
    ¬ (occupiedCount exScanned + exScanned.freePositions = usableCount exScanned) := by
  decide

/-- C9 (amended).  Nodes with zero assignments are cleared and reset to
freeSlots = usableSlots only when the assignment table is entirely empty;
when any assignment exists, updateOccupancyStatus recomputes only the
nodes targeted by some assignment and leaves every other node untouched,
stale occupants included. -/
theorem claim9_zero_assignment_nodes (game : GameState) (st : PlannerState) :
    (st.assignments = [] →
      ∀ sid sd, (sid, sd) ∈ updateOccupancyStatus game st →
        (∀ p ∈ sd.positions, p.occupiedBy = none) ∧
        sd.freePositions = usableCount sd) ∧
    (st.assignments ≠ [] →
      ∀ sid sd, (sid, sd) ∈ st.sourceDatabase →
        sid ∉ st.assignments.map Prod.snd →
        (sid, sd) ∈ updateOccupancyStatus game st) := by
  constructor
  · intro hA sid sd hmem
    unfold updateOccupancyStatus at hmem
    rw [hA] at hmem
    simp only [List.map_nil, List.isEmpty_nil, if_true] at hmem
    obtain ⟨p0, _, heq⟩ := List.mem_map.mp hmem
    injection heq with h1 h2
    constructor
    · rw [← h2]
      intro p hp
      obtain ⟨q, _, rfl⟩ := List.mem_map.mp hp
      rfl
    · rw [← h2]
      rfl
  · intro hA sid sd hmem hout
    unfold updateOccupancyStatus
    have hne : ¬ (st.assignments.map Prod.fst).isEmpty = true := by
      cases h : st.assignments with
      | nil => exact absurd h hA
      | cons a t => simp
    rw [if_neg hne]
    have hout2 : sid ∉ dedupFirst (st.assignments.map Prod.snd) := by
      intro hc
      exact hout ((mem_dedupFirst ..).mp hc)
    refine foldl_assocUpdate_keeps recountFree _ _ _ _ ?_ hout2
    refine markLoop_keeps game st.assignments _ _ _ _ ?_ hout
    exact foldl_assocUpdate_keeps clearOccupants _ _ _ _ hmem hout2

/-- Witness for C9: the ghost node sB is returned untouched while sA is
assigned. -/
theorem claim9_zero_assignment_nodes_witness :
    ("sB", exGhost) ∈ updateOccupancyStatus exGame1 exSt9 :=
  (claim9_zero_assignment_nodes exGame1 exSt9).2 (by decide) "sB" exGhost
    (by decide) (by decide)

/-- Counterexample to C9 as frozen: during an update in which sA has an
assignment, the zero-assignment node sB keeps its ghost occupant and its
stale free counter instead of being cleared and reset to its usable
count. -/
theorem claim9_counterexample :
    assocGet (updateOccupancyStatus exGame1 exSt9) "sB" = some exGhost ∧
    (∃ p ∈ exGhost.positions, p.occupiedBy = some "ghost") ∧
    exGhost.freePositions ≠ usableCount exGhost := by
  refine ⟨by decide, ⟨exGhost.positions.head (by decide), by decide⟩, by decide⟩

/-- C2 (amended).  Whenever assignSourceToCreep returns a node, that node
is one of the collected candidates (nodes with free capacity whose source
object resolves in a visible room and which are local or
remote-allowed-and-accessible) and compares no greater than every
collected candidate under the comparator: local strictly before remote,
then more free slots, then smaller range.  (The claim as frozen ranges
over all nodes meeting the free/local/accessible condition; the
implementation additionally drops nodes whose source object does not
resolve, see the counterexample.) -/
theorem claim2_selection_minimal (game : GameState)
    (db : List (String × SourceData)) (request : HarvestRequest)
    (sid : String) (h : assignSourceToCreep game db request = some sid) :
    selectionContract game db request sid := by
  unfold assignSourceToCreep at h
  rcases hc : findCreep game request.creepName with _ | creep
  · rw [hc] at h; cases h
  · rw [hc] at h
    dsimp only at h
    by_cases he : (collectCandidates game db request creep).isEmpty
    · rw [if_pos he] at h; cases h
    · rw [if_neg he] at h
      rcases hs : sortCands (collectCandidates game db request creep) with _ | ⟨best, rest⟩
      · rw [hs] at h; cases h
      · rw [hs] at h
        obtain rfl : best.sourceId = sid := by
          simpa using h
        have hmem : best ∈ collectCandidates game db request creep :=
          (mem_sortCands ..).mp (hs ▸ List.mem_cons_self ..)
        have hmin := sortCands_head_min _ _ _ hs
        refine ⟨creep, hc, best, hmem, rfl, hmin, ?_, ?_⟩
        · intro c2 hc2 hl
          exact (candCmp_le_elim best c2 (hmin c2 hc2)).1 hl
        · intro c2 hc2 hl
          exact (candCmp_le_elim best c2 (hmin c2 hc2)).2 hl.symm

/-- Witness for C2: between two local nodes with 1 and 4 free slots the
resolver picks the one with 4 and the selection contract holds there. -/
theorem claim2_selection_minimal_witness :
    selectionContract exGame1 exDb2 exReqA "s4" :=
  claim2_selection_minimal exGame1 exDb2 exReqA "s4" (by decide)

/-- Counterexample to C2 as frozen: node sL has free slots and is in the
requester region (so it satisfies the claimed candidate condition and by
the claimed ordering must beat every remote node), yet the resolver picks
the remote node sR, because sL fails the additional live-object check. -/
theorem claim2_counterexample :
    assignSourceToCreep exGameX exDbX exReqX = some "sR" ∧
    ("sL", exSDL) ∈ exDbX ∧
    specCandidate exGameX exReqX exSDL ∧
    exSDL.roomName = exReqX.roomName ∧
    (∀ sd, assocGet exDbX "sR" = some sd → sd.roomName ≠ exReqX.roomName) := by
  refine ⟨by decide, by decide, ⟨by decide, Or.inl (by decide)⟩, by decide, by decide⟩

/-- C3 (amended).  Creating assignments during a resolution pass never
modifies the source database: processHarvestRequests performs no
freeSlots decrement, so the availability snapshot stays constant for the
whole pass.  (The frozen claim asserts an optimistic decrement that
prevents double-booking; no such decrement exists, see the
counterexample.) -/
theorem claim3_no_decrement (game : GameState) (st : PlannerState) :
    (processHarvestRequests game st).1.sourceDatabase = st.sourceDatabase := by
  unfold processHarvestRequests
  split
  · rfl
  · rfl

/-- Counterexample to C3 as frozen: a node with exactly one free slot at
the start of the pass receives two assignments within the same pass. -/
theorem claim3_counterexample :
    (assocGet exStDouble.sourceDatabase "s1").map SourceData.freePositions = some 1 ∧
    ((processHarvestRequests exGame1 exStDouble).1.assignments.filter
      (fun p => p.2 == "s1")).length = 2 := by
  refine ⟨by decide, by decide⟩

/-- C4.  Evaluation of the resolver pass at the failing input: the queue
holds requests of priorities 1 (worker a) and 9 (worker b); the pass
sorts ascending but then iterates from the back of the array, so the
priority-9 request is resolved and emitted before the priority-1 request
— descending priority order, contradicting the claimed ascending order. -/
theorem claim4_processing_order :
    exReqA.priority = 1 ∧ exReqB.priority = 9 ∧
    (processHarvestRequests exGame1 exStDouble).2 =
      [("b", "s1", "E1N1"), ("a", "s1", "E1N1")] := by
  refine ⟨rfl, rfl, by decide⟩

/-- When the submitting worker holds no assignment, handleHarvestRequest
reduces to the queue phase. -/
theorem handle_no_assignment (game : GameState) (st : PlannerState)
    (d : HarvestSignalData)
    (h1 : assocGet st.assignments d.creepName = none) :
    handleHarvestRequest game st d = enqueueRequest game st (mkRequest game d) := by
  simp only [handleHarvestRequest]
  rw [show (mkRequest game d).creepName = d.creepName from rfl, h1]

/-- C5 (amended).  Saving and restoring with no visible rooms reproduces
the node table, the assignment table and the region-adjacency table
exactly, while the request queue — which saveData does not persist — is
always empty after a restore.  (The frozen claim asserts the request list
round-trips as well; it does not, see the counterexample.) -/
theorem claim5_round_trip (st : PlannerState) :
    (initializeSourceDatabase exGameNone (saveData st)).sourceDatabase =
      st.sourceDatabase ∧
    (initializeSourceDatabase exGameNone (saveData st)).assignments =
      st.assignments ∧
    (initializeSourceDatabase exGameNone (saveData st)).adjacentRoomsCache =
      st.adjacentRoomsCache ∧
    (initializeSourceDatabase exGameNone (saveData st)).harvestRequests = [] :=
  ⟨rfl, rfl, rfl, rfl⟩

/-- Counterexample to C5 as frozen: a state with one queued request
restores to an empty queue, so the restored collections do not all equal
the saved ones. -/
theorem claim5_counterexample :
    exStQueue.harvestRequests ≠ [] ∧
    (initializeSourceDatabase exGameNone (saveData exStQueue)).harvestRequests = [] := by
  refine ⟨by decide, rfl⟩

/-- C6 (amended).  When the submitting worker holds no assignment and the
queue already holds an entry with the same worker and the same region,
handleHarvestRequest never changes the queue length: it updates the found
entry in place (new priority and refreshed timestamp) exactly when the
new priority is numerically lower, and leaves the queue untouched
otherwise.  (The frozen claim asserts this regardless of which region the
resubmission names; a resubmission naming a different region adds a
second entry for the same worker, see the counterexample.) -/
theorem claim6_dedup_same_region (game : GameState) (st : PlannerState)
    (d : HarvestSignalData) (i : Nat) (e : HarvestRequest)
    (h1 : assocGet st.assignments d.creepName = none)
    (h2 : st.harvestRequests.findIdx?
      (fun r => r.creepName == d.creepName && r.roomName == d.roomName) = some i)
    (h3 : st.harvestRequests.get? i = some e) :
    (handleHarvestRequest game st d).harvestRequests.length =
      st.harvestRequests.length ∧
    (jsOrInt d.priority 5 < e.priority →
      (handleHarvestRequest game st d).harvestRequests =
        st.harvestRequests.set i
          { e with priority := jsOrInt d.priority 5, requestTime := game.time }) ∧
    (¬ jsOrInt d.priority 5 < e.priority →
      (handleHarvestRequest game st d).harvestRequests = st.harvestRequests) := by
  have he : handleHarvestRequest game st d =
      if jsOrInt d.priority 5 < e.priority then
        { st with harvestRequests :=
            st.harvestRequests.set i { e with priority := jsOrInt d.priority 5, requestTime := game.time } }
      else st := by
    rw [handle_no_assignment game st d h1]
    unfold enqueueRequest
    simp only [mkRequest]
    rw [h2]
    dsimp only
    rw [h3]
  rw [he]
  by_cases hp : jsOrInt d.priority 5 < e.priority
  · rw [if_pos hp]
    exact ⟨List.length_set .., fun _ => rfl, fun hcon => absurd hp hcon⟩
  · rw [if_neg hp]
    exact ⟨rfl, fun hcon => absurd hcon hp, fun _ => rfl⟩

/-- Witness for C6: the same-region resubmission with priority 2 keeps a
one-entry queue and upgrades the entry in place. -/
theorem claim6_dedup_same_region_witness :
    (handleHarvestRequest exGame9 exSt6 exD6).harvestRequests.length =
      exSt6.harvestRequests.length ∧
    (handleHarvestRequest exGame9 exSt6 exD6).harvestRequests =
      exSt6.harvestRequests.set 0
        { exE6 with priority := 2, requestTime := 9 } :=
  have h := claim6_dedup_same_region exGame9 exSt6 exD6 0 exE6 (by decide)
    (by decide) (by decide)
  ⟨h.1, h.2.1 (by decide)⟩

/-- Counterexample to C6 as frozen: resubmitting with equal priority but
a different region leaves two live queue entries for the same worker. -/
theorem claim6_counterexample :
    ((handleHarvestRequest exGameC (handleHarvestRequest exGameC exSt0 exD6a)
        exD6b).harvestRequests.filter (fun r => r.creepName == "c")).length = 2 := by
  decide

/-- C7 (amended).  A sweep keeps exactly the requests whose age does not
exceed the 100-tick timeout — so a request is still present when its age
is exactly 100 and is removed by the first sweep after its age strictly
exceeds 100 — and while every node is saturated a resolution pass creates
no assignment and emits nothing.  (The frozen claim asserts removal
exactly at cycle 100; the comparison is strict, see the
counterexample.) -/
theorem claim7_timeout_sweep (t : Nat) (reqs : List HarvestRequest)
    (game : GameState) (st : PlannerState)
    (hsat : ∀ sid sd, (sid, sd) ∈ st.sourceDatabase → sd.freePositions = 0) :
    (∀ r, r ∈ cleanupTimeoutRequests t reqs ↔
      r ∈ reqs ∧ t - r.requestTime ≤ REQUEST_TIMEOUT) ∧
    (processHarvestRequests game st).1.assignments = st.assignments ∧
    (processHarvestRequests game st).2 = [] := by
  refine ⟨fun r => mem_cleanupTimeout t reqs r, ?_, ?_⟩
  · unfold processHarvestRequests
    split
    · rfl
    · exact (runRequestsRev_saturated game st.sourceDatabase hsat _ _).1
  · unfold processHarvestRequests
    split
    · rfl
    · exact (runRequestsRev_saturated game st.sourceDatabase hsat _ _).2

/-- Witness for C7 at tick 150 with a saturated node table. -/
theorem claim7_timeout_sweep_witness :
    (exReqKeep ∈ cleanupTimeoutRequests 150 exReqs7 ↔
      exReqKeep ∈ exReqs7 ∧ 150 - exReqKeep.requestTime ≤ REQUEST_TIMEOUT) ∧
    (processHarvestRequests exGame1 exSt7).1.assignments = exSt7.assignments ∧
    (processHarvestRequests exGame1 exSt7).2 = [] :=
  have h := claim7_timeout_sweep 150 exReqs7 exGame1 exSt7
    (by
      intro sid sd hmem
      simp only [exSt7, List.mem_singleton] at hmem
      injection hmem with ha hb
      rw [hb]
      rfl)
  ⟨h.1 exReqKeep, h.2.1, h.2.2⟩

/-- Counterexample to C7 as frozen: at tick 100 — age exactly 100, the
claimed purge cycle — the sweep still keeps the request. -/
theorem claim7_counterexample :
    (100 : Nat) - exReqT0.requestTime = 100 ∧
    cleanupTimeoutRequests 100 [exReqT0] = [exReqT0] := by
  refine ⟨rfl, by decide⟩

/-- C8.  Evaluation of the adjacency scan: it never emits a scout
request, for any game and any planner state.  The branch of
scanAdjacentRooms that would call requestScout for an invisible
neighbouring region is unreachable, because isRoomAccessible already
returns false for every invisible region and the loop skips the region
before reaching the visibility test. -/
theorem claim8_no_scout_requests (game : GameState) (st : PlannerState) :
    (scanAdjacentRooms game st).2 = [] := by
  unfold scanAdjacentRooms
  exact scanAdjacentRooms_foldl_emits game _ _

/-- C10.  A submission with absent or zero priority is enqueued with the
default priority 5, an absent remote-allowed flag defaults to false, and
the queued entry carries the submitted priority exactly when that
priority is a nonzero number. -/
theorem claim10_priority_default (game : GameState) (st : PlannerState)
    (d : HarvestSignalData)
    (h1 : assocGet st.assignments d.creepName = none)
    (h2 : st.harvestRequests.findIdx?
      (fun r => r.creepName == d.creepName && r.roomName == d.roomName) = none)
    (h3 : (findCreep game d.creepName).isSome) :
    (handleHarvestRequest game st d).harvestRequests =
      st.harvestRequests ++ [mkRequest game d] ∧
    (d.priority = none → (mkRequest game d).priority = 5) ∧
    (d.priority = some 0 → (mkRequest game d).priority = 5) ∧
    (∀ p : Int, d.priority = some p →
      ((mkRequest game d).priority = p ↔ p ≠ 0)) ∧
    (d.allowCrossRoom = none → (mkRequest game d).allowCrossRoom = false) := by
  refine ⟨?_, ?_, ?_, ?_, ?_⟩
  · rcases hf : findCreep game d.creepName with _ | c
    · rw [hf] at h3; exact Bool.noConfusion h3
    · rw [handle_no_assignment game st d h1]
      unfold enqueueRequest
      simp only [mkRequest]
      rw [h2]
      dsimp only
      rw [show findCreep game d.creepName = some c from hf]
      rfl
  · intro hx; simp [mkRequest, jsOrInt, hx]
  · intro hx; simp [mkRequest, jsOrInt, hx]
  · intro p hx
    constructor
    · intro hep hc
      rw [hc] at hx
      simp [mkRequest, jsOrInt, hx, hc] at hep
    · intro hc
      simp [mkRequest, jsOrInt, hx, hc]
  · intro hx; simp [mkRequest, jsOrBool, hx]

/-- Witness for C10: the zero-priority submission by worker a is enqueued
with priority 5. -/
theorem claim10_priority_default_witness :
    (handleHarvestRequest exGame1 exSt0 exD10).harvestRequests =
      exSt0.harvestRequests ++ [mkRequest exGame1 exD10] ∧
    (mkRequest exGame1 exD10).priority = 5 :=
  have h := claim10_priority_default exGame1 exSt0 exD10 (by decide)
    (by decide) (by decide)
  ⟨h.1, h.2.2.1 rfl⟩

end HarvestPlanner
